import Mathlib

/-!
Verification of the two-tier on-disk caching subsystem and the
cascading-fallback resolution strategy of the hacker-news aggregator.

The TypeScript sources are shallowly embedded:

* `src/utils/summaryCache.ts` and `src/utils/imageCache.ts` — the two
  cache tiers.  The on-disk index (a JSON object) is modelled as an
  association list `List (String × _)` in insertion order, which is the
  iteration order of a JavaScript object with string keys.  Filesystem
  reads that may fail (`fs.readFile` + `JSON.parse`) are modelled as an
  `Except Unit _` argument; writes performed by an operation are returned
  explicitly (an `Option` index meaning "`saveCacheIndex` was called with
  this index").
* `src/app/api/aggregate/route.ts` — the aggregator (dedup by URL via a
  JavaScript `Map`, multi-factor sort, truncation).
* `src/app/api/summarize/route.ts` — the Gemini → OpenAI → template
  cascade.  Each provider call is parametrised by its API key and by the
  outcome of the network round-trip, so that every failure mode of the
  source (missing credentials, thrown error, too-short output) is a value
  of the model.
* `src/app/page.tsx` — `ensureUniqueIds` with its 32-bit string hash.

JavaScript built-ins used by the sources (`md5` from node:crypto,
`String.prototype.toLowerCase`, `JSON.stringify`, `Number.prototype.toFixed`,
32-bit `<<`/`|0` arithmetic) are implemented here over `Nat`/`Int`/`String`
so everything is executable and kernel-decidable on concrete inputs.
ASCII inputs are assumed where JavaScript operates on UTF-16 code units.
-/

namespace HN

/-! ## JavaScript string and number primitives -/

/-- `String.prototype.toLowerCase` (ASCII range, as used by the sources). -/
def jsToLower (s : String) : String := String.mk (s.toList.map Char.toLower)

/-- `String.prototype.trim`: strip leading and trailing whitespace
(kernel-reducible replacement for `String.trim`). -/
def jsTrim (s : String) : String :=
  String.mk (((s.toList.dropWhile Char.isWhitespace).reverse.dropWhile
    Char.isWhitespace).reverse)

/-- UTF-8/ASCII bytes of a string; for the ASCII inputs handled by the
cache keys this agrees with Node's `Buffer.from(s)`. -/
def strBytes (s : String) : List Nat := s.toList.map Char.toNat

/-- Truncation to a signed 32-bit integer, i.e. the JavaScript `| 0`
coercion (`ToInt32`). -/
def toInt32 (x : Int) : Int := (x + 2 ^ 31) % 2 ^ 32 - 2 ^ 31

/-! ### MD5 (node:crypto `createHash('md5')`), used for cache keys and
artifact filenames. -/

/-- The 64 MD5 round constants `K[i] = floor(2^32 * |sin(i+1)|)`. -/
def md5K : List Nat :=
  [0xd76aa478, 0xe8c7b756, 0x242070db, 0xc1bdceee,
   0xf57c0faf, 0x4787c62a, 0xa8304613, 0xfd469501,
   0x698098d8, 0x8b44f7af, 0xffff5bb1, 0x895cd7be,
   0x6b901122, 0xfd987193, 0xa679438e, 0x49b40821,
   0xf61e2562, 0xc040b340, 0x265e5a51, 0xe9b6c7aa,
   0xd62f105d, 0x02441453, 0xd8a1e681, 0xe7d3fbc8,
   0x21e1cde6, 0xc33707d6, 0xf4d50d87, 0x455a14ed,
   0xa9e3e905, 0xfcefa3f8, 0x676f02d9, 0x8d2a4c8a,
   0xfffa3942, 0x8771f681, 0x6d9d6122, 0xfde5380c,
   0xa4beea44, 0x4bdecfa9, 0xf6bb4b60, 0xbebfbc70,
   0x289b7ec6, 0xeaa127fa, 0xd4ef3085, 0x04881d05,
   0xd9d4d039, 0xe6db99e5, 0x1fa27cf8, 0xc4ac5665,
   0xf4292244, 0x432aff97, 0xab9423a7, 0xfc93a039,
   0x655b59c3, 0x8f0ccc92, 0xffeff47d, 0x85845dd1,
   0x6fa87e4f, 0xfe2ce6e0, 0xa3014314, 0x4e0811a1,
   0xf7537e82, 0xbd3af235, 0x2ad7d2bb, 0xeb86d391]

/-- The 64 MD5 per-round left-rotation amounts. -/
def md5S : List Nat :=
  [7, 12, 17, 22, 7, 12, 17, 22, 7, 12, 17, 22, 7, 12, 17, 22,
   5, 9, 14, 20, 5, 9, 14, 20, 5, 9, 14, 20, 5, 9, 14, 20,
   4, 11, 16, 23, 4, 11, 16, 23, 4, 11, 16, 23, 4, 11, 16, 23,
   6, 10, 15, 21, 6, 10, 15, 21, 6, 10, 15, 21, 6, 10, 15, 21]

def mask32 : Nat := 0xffffffff

/-- 32-bit left rotation. -/
def rotl32 (x s : Nat) : Nat :=
  ((x <<< s) ||| (x >>> (32 - s))) &&& mask32

/-- MD5 padding: append `0x80`, zero-pad to 56 mod 64 bytes, append the
bit length as a 64-bit little-endian integer. -/
def md5Pad (msg : List Nat) : List Nat :=
  let len := msg.length
  let padLen := (55 + 64 - len % 64) % 64 + 1
  let bitLen := (len * 8) % (2 ^ 64)
  msg ++ (0x80 :: List.replicate (padLen - 1) 0)
      ++ ((List.range 8).map fun i => (bitLen >>> (8 * i)) &&& 0xff)

/-- Little-endian 32-bit word `j` of a 64-byte chunk. -/
def leWord (bytes : List Nat) (j : Nat) : Nat :=
  (bytes.getD (4 * j) 0) ||| ((bytes.getD (4 * j + 1) 0) <<< 8) |||
  ((bytes.getD (4 * j + 2) 0) <<< 16) ||| ((bytes.getD (4 * j + 3) 0) <<< 24)

/-- One MD5 round on state `(a, b, c, d)`. -/
def md5Round (m : List Nat) (st : Nat × Nat × Nat × Nat) (i : Nat) :
    Nat × Nat × Nat × Nat :=
  let (a, b, c, d) := st
  let (f, g) :=
    if i < 16 then ((b &&& c) ||| ((mask32 ^^^ b) &&& d), i)
    else if i < 32 then ((d &&& b) ||| ((mask32 ^^^ d) &&& c), (5 * i + 1) % 16)
    else if i < 48 then (b ^^^ c ^^^ d, (3 * i + 5) % 16)
    else (c ^^^ (b ||| (mask32 ^^^ d)), (7 * i) % 16)
  let f := (f + a + md5K.getD i 0 + leWord m g) &&& mask32
  (d, (b + rotl32 f (md5S.getD i 0)) &&& mask32, b, c)

/-- Process one 64-byte chunk. -/
def md5Chunk (st : Nat × Nat × Nat × Nat) (chunk : List Nat) :
    Nat × Nat × Nat × Nat :=
  let (a0, b0, c0, d0) := st
  let (a, b, c, d) := (List.range 64).foldl (md5Round chunk) (a0, b0, c0, d0)
  ((a0 + a) &&& mask32, (b0 + b) &&& mask32,
   (c0 + c) &&& mask32, (d0 + d) &&& mask32)

/-- Split a padded message into 64-byte chunks. -/
def md5Chunks (bytes : List Nat) : List (List Nat) :=
  (List.range (bytes.length / 64)).map fun i => (bytes.drop (64 * i)).take 64

/-- The MD5 digest of a byte list, as 16 bytes. -/
def md5Bytes (msg : List Nat) : List Nat :=
  let padded := md5Pad msg
  let (a, b, c, d) := (md5Chunks padded).foldl md5Chunk
      (0x67452301, 0xefcdab89, 0x98badcfe, 0x10325476)
  [a, b, c, d].flatMap fun w => (List.range 4).map fun i => (w >>> (8 * i)) &&& 0xff

def hexDigit (n : Nat) : Char :=
  if n < 10 then Char.ofNat (48 + n) else Char.ofNat (87 + n)

def byteHex (b : Nat) : String :=
  String.mk [hexDigit (b / 16), hexDigit (b % 16)]

/-- `createHash('md5').update(s).digest('hex')`. -/
def md5Hex (msg : List Nat) : String :=
  String.join ((md5Bytes msg).map byteHex)

/-! ### JavaScript object / `Map` association-list helpers

A JavaScript object with string keys (and a JavaScript `Map`) iterates its
entries in insertion order; assigning an existing key replaces the value in
place, assigning a fresh key appends. -/

/-- Property read `m[k]`. -/
def lookupKey {α : Type} : List (String × α) → String → Option α
  | [], _ => none
  | e :: t, k => if e.1 == k then some e.2 else lookupKey t k

/-- Property write `m[k] = v`: replace in place if the key exists
(a JavaScript object holds each key at most once), otherwise append. -/
def setKey {α : Type} : List (String × α) → String → α → List (String × α)
  | [], k, v => [(k, v)]
  | e :: t, k, v => if e.1 == k then (k, v) :: t else e :: setKey t k v

/-- `delete m[k]`. -/
def eraseKey {α : Type} (m : List (String × α)) (k : String) :
    List (String × α) :=
  m.filter fun e => !(e.1 == k)

/-- `Object.keys(m)`. -/
def keysOf {α : Type} (m : List (String × α)) : List String :=
  m.map fun e => e.1

/-! ### `JSON.stringify` (compact and 2-space-indented forms) -/

/-- JSON string escaping as performed by `JSON.stringify` on the
printable-ASCII content handled here. -/
def jsonEscapeChar (c : Char) : String :=
  if c = '"' then "\\\""
  else if c = '\\' then "\\\\"
  else if c = '\n' then "\\n"
  else if c = '\t' then "\\t"
  else if c = '\r' then "\\r"
  else String.mk [c]

def jsQuote (s : String) : String :=
  "\"" ++ String.join (s.toList.map jsonEscapeChar) ++ "\""

/-- `(len / 1024).toFixed(2)` for a byte count `len` — round to the
nearest hundredth, ties away from zero. -/
def kbFixed2 (len : Nat) : String :=
  let num := len * 100
  let q := num / 1024
  let r := num % 1024
  let hundredths := if 2 * r ≥ 1024 then q + 1 else q
  let frac := hundredths % 100
  toString (hundredths / 100) ++ "." ++
    (if frac < 10 then "0" else "") ++ toString frac

/-! ## Summary cache (`src/utils/summaryCache.ts`) -/

/-- `CACHE_EXPIRY_DAYS * 24 * 60 * 60 * 1000` — 7 days in milliseconds. -/
def summaryExpiryMs : Int := 7 * 24 * 60 * 60 * 1000

/-- One entry of the summary-cache index. -/
structure SummaryCacheEntry where
  summary : String
  timestamp : Int
  title : String
  urlHash : String
  deriving Repr, DecidableEq

/-- The on-disk summary index `{ [urlHash]: SummaryCacheEntry }`. -/
abbrev SummaryCacheIndex : Type := List (String × SummaryCacheEntry)

/-- `generateUrlHash(url)`: MD5 hex digest of the URL exactly as given. -/
def generateUrlHash (url : String) : String := md5Hex (strBytes url)

/-- `isExpired(timestamp)` with `Date.now()` passed in explicitly. -/
def isExpired (now timestamp : Int) : Bool := now - timestamp > summaryExpiryMs

/-- `loadCacheIndex()`: `readFile` + `JSON.parse`, any failure caught and
turned into the empty index.  The possibly-failing read/parse step is the
`Except` argument. -/
def loadCacheIndex (read : Except Unit SummaryCacheIndex) : SummaryCacheIndex :=
  match read with
  | .ok index => index
  | .error _ => []

/-- `getCachedSummary(url)`.  The function only reads; its body contains
no call to `saveCacheIndex`, so the model returns just the result of the
lookup (`null` ↦ `none`). -/
def getCachedSummary (read : Except Unit SummaryCacheIndex) (now : Int)
    (url : String) : Option String :=
  let index := loadCacheIndex read
  match lookupKey index (generateUrlHash url) with
  | none => none
  | some cachedEntry =>
    if isExpired now cachedEntry.timestamp then none
    else some cachedEntry.summary

/-- `cacheSummary(url, summary, title)`: lazily delete every expired
entry, insert/overwrite the new entry, save.  The returned index is the
argument passed to `saveCacheIndex`. -/
def cacheSummary (read : Except Unit SummaryCacheIndex) (now : Int)
    (url summary title : String) : Option SummaryCacheIndex :=
  let urlHash := generateUrlHash url
  let index := loadCacheIndex read
  let cleaned := index.filter fun e => !(isExpired now e.2.timestamp)
  let cacheEntry : SummaryCacheEntry :=
    { summary := summary, timestamp := now, title := title, urlHash := urlHash }
  some (setKey cleaned urlHash cacheEntry)

/-- The record returned by `getSummaryCacheStats`. -/
structure SummaryCacheStats where
  totalEntries : Nat
  totalSize : String
  expiredEntries : Nat
  deriving Repr, DecidableEq

/-- Compact `JSON.stringify` of a summary-cache entry. -/
def stringifySummaryEntry (e : SummaryCacheEntry) : String :=
  "\x7b\"summary\":" ++ jsQuote e.summary ++
  ",\"timestamp\":" ++ toString e.timestamp ++
  ",\"title\":" ++ jsQuote e.title ++
  ",\"urlHash\":" ++ jsQuote e.urlHash ++ "\x7d"

/-- Compact `JSON.stringify(index)` as used by `getSummaryCacheStats`. -/
def stringifySummaryIndex (m : SummaryCacheIndex) : String :=
  "\x7b" ++ String.intercalate ","
      (m.map fun e => jsQuote e.1 ++ ":" ++ stringifySummaryEntry e.2) ++ "\x7d"

/-- `JSON.stringify(entry, null, 2)` at one level of nesting. -/
def stringifySummaryEntryPretty (e : SummaryCacheEntry) : String :=
  "\x7b\n    \"summary\": " ++ jsQuote e.summary ++
  ",\n    \"timestamp\": " ++ toString e.timestamp ++
  ",\n    \"title\": " ++ jsQuote e.title ++
  ",\n    \"urlHash\": " ++ jsQuote e.urlHash ++ "\n  \x7d"

/-- `JSON.stringify(index, null, 2)` as written by `saveCacheIndex`. -/
def stringifySummaryIndexPretty (m : SummaryCacheIndex) : String :=
  match m with
  | [] => "\x7b\x7d"
  | _ => "\x7b\n" ++ String.intercalate ",\n"
      (m.map fun e => "  " ++ jsQuote e.1 ++ ": " ++ stringifySummaryEntryPretty e.2)
      ++ "\n\x7d"

/-- `getSummaryCacheStats()`. -/
def getSummaryCacheStats (read : Except Unit SummaryCacheIndex) (now : Int) :
    SummaryCacheStats :=
  let index := loadCacheIndex read
  let entries := index.map fun e => e.2
  let expiredCount := entries.countP fun e => isExpired now e.timestamp
  let indexSize := (stringifySummaryIndex index).length
  { totalEntries := entries.length
    totalSize := kbFixed2 indexSize ++ " KB"
    expiredEntries := expiredCount }

/-! ## Image cache (`src/utils/imageCache.ts`) -/

/-- One entry of the image-cache index. -/
structure ImageCacheEntry where
  filename : String
  timestamp : Int
  originalUrl : String
  deriving Repr, DecidableEq

/-- The on-disk image index `{ [query]: { filename, timestamp, originalUrl } }`. -/
abbrev ImageCacheIndex : Type := List (String × ImageCacheEntry)

/-- `generateFilename(query)`: MD5 hex of the raw query, `.jpg` appended. -/
def generateFilename (query : String) : String :=
  md5Hex (strBytes query) ++ ".jpg"

/-- `loadCacheIndex()` of the image tier (same catch-to-empty shape). -/
def loadImageCacheIndex (read : Except Unit ImageCacheIndex) : ImageCacheIndex :=
  match read with
  | .ok index => index
  | .error _ => []

/-- `getCachedImage(query)`.  `files` is the set of artifact filenames
present in the cache directory (`fs.access` succeeds exactly on members).
The second component is the index passed to `saveCacheIndex` if the
operation saved one (the self-heal branch when the artifact file is
missing), `none` otherwise. -/
def getCachedImage (read : Except Unit ImageCacheIndex) (files : List String)
    (query : String) : Option String × Option ImageCacheIndex :=
  let index := loadImageCacheIndex read
  match lookupKey index (jsToLower query) with
  | none => (none, none)
  | some cacheEntry =>
    if files.contains cacheEntry.filename then
      (some ("/cache/" ++ cacheEntry.filename), none)
    else
      (none, some (eraseKey index (jsToLower query)))

/-- The index update performed by a successful `cacheImage(query, imageUrl)`
(download succeeded and the artifact was written):
`index[query.toLowerCase()] = { filename, timestamp, originalUrl }`. -/
def cacheImageIndex (read : Except Unit ImageCacheIndex) (query imageUrl : String)
    (now : Int) : ImageCacheIndex :=
  setKey (loadImageCacheIndex read) (jsToLower query)
    { filename := generateFilename query, timestamp := now, originalUrl := imageUrl }

/-- `JSON.stringify(entry, null, 2)` at one level of nesting (image tier). -/
def stringifyImageEntryPretty (e : ImageCacheEntry) : String :=
  "\x7b\n    \"filename\": " ++ jsQuote e.filename ++
  ",\n    \"timestamp\": " ++ toString e.timestamp ++
  ",\n    \"originalUrl\": " ++ jsQuote e.originalUrl ++ "\n  \x7d"

/-- `JSON.stringify(index, null, 2)` as written by the image tier save. -/
def stringifyImageIndexPretty (m : ImageCacheIndex) : String :=
  match m with
  | [] => "\x7b\x7d"
  | _ => "\x7b\n" ++ String.intercalate ",\n"
      (m.map fun e => "  " ++ jsQuote e.1 ++ ": " ++ stringifyImageEntryPretty e.2)
      ++ "\n\x7d"

/-! ## Filesystem write traces for the two `saveCacheIndex` variants

A save is a sequence of filesystem operations.  A plain `write` is not
atomic: while it is in progress a concurrent reader of that path can
observe any prefix of the data (the file is truncated first).  A `rename`
is atomic: a reader sees the old or the new file, nothing in between. -/

inductive FsOp : Type where
  | write (path content : String)
  | rename (src dst : String)
  deriving Repr, DecidableEq

/-- A filesystem: path ↦ contents. -/
abbrev Fs : Type := List (String × String)

def fsGet (fs : Fs) (path : String) : Option String := lookupKey fs path

/-- Effect of one completed operation on the filesystem. -/
def applyFsOp (fs : Fs) : FsOp → Fs
  | .write path content => setKey fs path content
  | .rename src dst =>
    match fsGet fs src with
    | some content => setKey (eraseKey fs src) dst content
    | none => fs

/-- Contents of `canonical` that a concurrent reader can observe while one
operation is in flight (boundary states are accounted for separately). -/
def midViews (canonical : String) : FsOp → List (Option String)
  | .write path content =>
    if path = canonical then
      (List.range (content.length + 1)).map fun n => some (content.take n)
    else []
  | .rename _ _ => []

/-- All contents of `canonical` observable at some point while the
operation sequence runs: every boundary state plus every mid-write state. -/
def canonViews (canonical : String) (fs : Fs) : List FsOp → List (Option String)
  | [] => [fsGet fs canonical]
  | op :: rest =>
    fsGet fs canonical :: midViews canonical op ++ canonViews canonical (applyFsOp fs op) rest

/-- `SUMMARY_INDEX_FILE` (relative to `process.cwd()`). -/
def summaryIndexFile : String := "public/summary-cache/index.json"

/-- `CACHE_INDEX_FILE` of the image tier (relative to `process.cwd()`). -/
def imageIndexFile : String := "public/cache/index.json"

/-- The write trace of the summary tier `saveCacheIndex(index)`:
write the serialized index to `index.json.tmp`, then rename it over
`index.json`. -/
def saveSummaryIndexOps (index : SummaryCacheIndex) : List FsOp :=
  [.write (summaryIndexFile ++ ".tmp") (stringifySummaryIndexPretty index),
   .rename (summaryIndexFile ++ ".tmp") summaryIndexFile]

/-- The write trace of the image tier `saveCacheIndex(index)`: a single
direct write to `index.json`. -/
def saveImageIndexOps (index : ImageCacheIndex) : List FsOp :=
  [.write imageIndexFile (stringifyImageIndexPretty index)]

/-! ## Aggregator (`src/app/api/aggregate/route.ts`) -/

/-- The unioned post shape of the aggregation API. -/
structure TrendingPost where
  id : String
  title : String
  url : String
  permalink : String
  score : Int
  author : String
  created_utc : Int
  num_comments : Int
  subreddit : String
  deriving Repr, DecidableEq

/-- Result of one source fetch as `fetchFromSource` reports it. -/
structure SourceResult where
  posts : List TrendingPost
  error : Option String
  deriving Repr, DecidableEq

/-- `fetchFromSource(source, limit)`: the whole body is wrapped in
`try/catch`; a throw (unknown source, network error, timeout) yields
`{ posts: [], error }` instead of propagating.  The `outcome` argument is
what the underlying route call produced. -/
def fetchFromSource (outcome : Except String (List TrendingPost)) : SourceResult :=
  match outcome with
  | .ok posts => { posts := posts, error := none }
  | .error e => { posts := [], error := some e }

/-- The dedup in `GET`: `new Map(allPosts.map(post => [post.url, post]))` —
a JavaScript `Map` built from entries keeps, per key, the value of the
**last** entry, at the position of the key's first insertion. -/
def uniquePosts (allPosts : List TrendingPost) : List TrendingPost :=
  ((allPosts.foldl (fun m post => setKey m post.url post) []).map fun e => e.2)

/-- The sort comparator of `GET`: descending score, but when the two
scores differ by less than 5 prefer the more recent post.  Negative means
`a` is ordered before `b`. -/
def comparePosts (a b : TrendingPost) : Int :=
  let scoreA := b.score - a.score
  if scoreA.natAbs < 5 then b.created_utc - a.created_utc
  else scoreA

/-- The post-list pipeline of the aggregation `GET`: concatenate each
source contribution (a failed source contributes `[]`), dedup by URL,
sort with `comparePosts`, truncate to `limit`. -/
def aggregatePosts (limit : Nat)
    (outcomes : List (Except String (List TrendingPost))) : List TrendingPost :=
  let allPosts := (outcomes.map fun o => (fetchFromSource o).posts).flatten
  let uniqueSorted := (uniquePosts allPosts).mergeSort fun a b => comparePosts a b ≤ 0
  uniqueSorted.take limit

/-! ## Summarize cascade (`src/app/api/summarize/route.ts`) -/

/-- One entry of the in-memory summary cache of the route. -/
structure MemCacheEntry where
  summary : String
  timestamp : Int
  source : String
  deriving Repr, DecidableEq

/-- `CACHE_DURATION` — 24 hours in milliseconds. -/
def memCacheDurationMs : Int := 24 * 60 * 60 * 1000

/-- `isCacheValid(timestamp)` with `Date.now()` explicit. -/
def isCacheValid (now timestamp : Int) : Bool := now - timestamp < memCacheDurationMs

/-- `generateCacheKey(title, url)`:
``${title}-${url || ''}``, lowercased, every character outside `[a-z0-9]`
replaced by `-`. -/
def generateCacheKey (title : String) (url : Option String) : String :=
  (jsToLower (title ++ "-" ++ url.getD "")).map fun c =>
    if ('a' ≤ c ∧ c ≤ 'z') ∨ ('0' ≤ c ∧ c ≤ '9') then c else '-'

/-- `generateGeminiSummary`: throws when the API key is missing, when the
SDK call throws, or when the trimmed output is empty or shorter than 20
characters (`!summary || summary.length < 20`); otherwise returns the
trimmed summary. -/
def generateGeminiSummary (apiKey : Option String)
    (response : Except Unit String) : Except String String :=
  match apiKey with
  | none => .error "Gemini API key not configured"
  | some _ =>
    match response with
    | .error _ => .error "Gemini API error"
    | .ok text =>
      let summary := jsTrim text
      if summary.length < 20 then .error "Gemini generated insufficient summary"
      else .ok summary

/-- `generateOpenAISummary`: same shape; the optional chaining
`choices[0]?.message?.content?.trim()` can produce `undefined`, hence the
inner `Option`. -/
def generateOpenAISummary (apiKey : Option String)
    (response : Except Unit (Option String)) : Except String String :=
  match apiKey with
  | none => .error "OpenAI API key not configured"
  | some _ =>
    match response with
    | .error _ => .error "OpenAI API error"
    | .ok content =>
      match content with
      | none => .error "OpenAI generated insufficient summary"
      | some text =>
        let summary := jsTrim text
        if summary.length < 20 then .error "OpenAI generated insufficient summary"
        else .ok summary

/-- The stop-word list of `generateFallbackSummary`. -/
def fallbackStopWords : List String :=
  ["with", "from", "that", "this", "will", "been", "have", "they", "more",
   "were", "said", "each", "than", "them", "many", "some", "time", "very",
   "when", "much", "into"]

/-- JavaScript `\w` — `[A-Za-z0-9_]`. -/
def isJsWordChar (c : Char) : Bool :=
  ('a' ≤ c ∧ c ≤ 'z') ∨ ('A' ≤ c ∧ c ≤ 'Z') ∨ ('0' ≤ c ∧ c ≤ '9') ∨ c = '_'

/-- Group the maximal runs of non-whitespace characters (whitespace
characters delimit, possibly producing empty groups that are filtered
away by the caller). -/
def nonWsGroups (l : List Char) : List (List Char) :=
  l.foldr (fun c acc =>
    if c.isWhitespace then [] :: acc
    else match acc with
      | [] => [[c]]
      | g :: gs => (c :: g) :: gs) []

/-- `s.split(/\s+/)`: split on maximal whitespace runs; a leading or a
trailing run contributes one empty piece, and `""` splits to `[""]`. -/
def jsSplitWs (s : String) : List String :=
  if s = "" then [""]
  else
    let tokens := ((nonWsGroups s.toList).map String.mk).filter fun t => t ≠ ""
    let headWs := (s.toList.headD 'x').isWhitespace
    let lastWs := (s.toList.getLastD 'x').isWhitespace
    (if headWs then [""] else []) ++ tokens ++ (if lastWs then [""] else [])

/-- The keyword extraction of `generateFallbackSummary`: lowercase,
replace every character outside `\w` and `\s` by a space, split on
whitespace, keep words longer than 3 letters, drop stop words, take 5. -/
def fallbackKeywords (title : String) : List String :=
  (((jsSplitWs (String.mk ((jsToLower title).toList.map fun c =>
      if isJsWordChar c ∨ c.isWhitespace then c else ' '))).filter
        fun word => word.length > 3).filter
        fun word => ¬ fallbackStopWords.contains word).take 5

/-- `xs.join(' and ')` (interpolating `undefined` for an out-of-range
`xs[i]` is handled by `kwAt`). -/
def joinAnd (xs : List String) : String := String.intercalate " and " xs

/-- `keywords[i]` under template interpolation: `undefined` prints as the
string `"undefined"`. -/
def kwAt (keywords : List String) (i : Nat) : String :=
  keywords.getD i "undefined"

/-- `generateFallbackSummary(title, url)`: the four templates, selected by
`title.length % templates.length`. -/
def generateFallbackSummary (title : String) (url : Option String) : String :=
  let keywords := fallbackKeywords title
  let templates : List String :=
    ["This article discusses " ++ joinAnd (keywords.take 2) ++
       ", covering key aspects of " ++ joinAnd ((keywords.drop 2).take 2) ++
       ". The piece explores how these technologies impact modern development practices.",
     "A comprehensive look at " ++ kwAt keywords 0 ++
       " technology, examining " ++ joinAnd ((keywords.drop 1).take 2) ++
       " in detail. This analysis provides insights into current trends and future implications.",
     "An in-depth exploration of " ++ joinAnd (keywords.take 2) ++
       ", highlighting important developments in " ++
       String.intercalate ", " (keywords.drop 2) ++
       ". Essential reading for understanding these technological advances.",
     "This piece examines " ++ kwAt keywords 0 ++
       " and its relationship to " ++ joinAnd ((keywords.drop 1).take 2) ++
       ". The article provides practical insights and technical analysis."]
  templates.getD (title.length % templates.length) ""

/-- The response body of a successful summarize `POST`. -/
structure SummarizeResponse where
  summary : String
  source : String
  cached : Bool
  deriving Repr, DecidableEq

/-- The Gemini → OpenAI → template cascade of the `POST` handler (the
nested `try`/`catch` block).  Returns the response body and the in-memory
cache after the `summaryCache.set` of the winning branch. -/
def summarizeCascade (title : String) (url : Option String)
    (cache : List (String × MemCacheEntry)) (now : Int)
    (gemKey : Option String) (gemResp : Except Unit String)
    (oaiKey : Option String) (oaiResp : Except Unit (Option String)) :
    SummarizeResponse × List (String × MemCacheEntry) :=
  match generateGeminiSummary gemKey gemResp with
  | .ok s =>
    (⟨s, "gemini", false⟩,
     setKey cache (generateCacheKey title url)
       { summary := s, timestamp := now, source := "gemini" })
  | .error _ =>
    match generateOpenAISummary oaiKey oaiResp with
    | .ok s =>
      (⟨s, "openai", false⟩,
       setKey cache (generateCacheKey title url)
         { summary := s, timestamp := now, source := "openai" })
    | .error _ =>
      (⟨generateFallbackSummary title url, "fallback", false⟩,
       setKey cache (generateCacheKey title url)
         { summary := generateFallbackSummary title url, timestamp := now,
           source := "fallback" })

/-- The summarize `POST` handler.  An error response is `(message, status)`.
On success the pair carries the JSON body and the in-memory cache after
the request.  The provider environments (`gemKey`/`gemResp`,
`oaiKey`/`oaiResp`) parametrise the two remote calls. -/
def summarizePOST (title : String) (url : Option String)
    (cache : List (String × MemCacheEntry)) (now : Int)
    (gemKey : Option String) (gemResp : Except Unit String)
    (oaiKey : Option String) (oaiResp : Except Unit (Option String)) :
    Except (String × Nat) (SummarizeResponse × List (String × MemCacheEntry)) :=
  if jsTrim title = "" then .error ("Title is required", 400)
  else
    match lookupKey cache (generateCacheKey title url) with
    | some cached =>
      if isCacheValid now cached.timestamp then
        .ok (⟨cached.summary, cached.source, true⟩, cache)
      else .ok (summarizeCascade title url cache now gemKey gemResp oaiKey oaiResp)
    | none => .ok (summarizeCascade title url cache now gemKey gemResp oaiKey oaiResp)

/-! ## `ensureUniqueIds` (`src/app/page.tsx`) -/

/-- The story shape consumed by the page component. -/
structure Story where
  id : Int
  title : String
  url : Option String
  score : Int
  «by» : String
  time : Int
  deriving Repr, DecidableEq

/-- The inline `createHash` of `ensureUniqueIds`:
`hash = ((hash << 5) - hash) + charCode; hash = hash | 0` over the
characters, then `Math.abs`.  `<<` operates on signed 32-bit integers. -/
def jsCreateHash (s : String) : Int :=
  (s.toList.foldl (fun hash c => toInt32 (toInt32 (hash * 32) - hash + c.toNat)) 0).natAbs

/-- The body of `ensureUniqueIds`: `seenIds` is the set of already-chosen
identifiers, `index` the current position in the list. -/
def ensureUniqueIdsGo (seenIds : List Int) (index : Nat) :
    List Story → List Story
  | [] => []
  | story :: rest =>
    let uniqueId :=
      if seenIds.contains story.id then
        jsCreateHash (story.title ++ story.url.getD "" ++ toString index)
      else story.id
    { story with id := uniqueId } ::
      ensureUniqueIdsGo (uniqueId :: seenIds) (index + 1) rest

/-- `ensureUniqueIds(stories)`. -/
def ensureUniqueIds (stories : List Story) : List Story :=
  ensureUniqueIdsGo [] 0 stories

/-- Decides that every replacement hash computed during a run of
`ensureUniqueIds` is itself fresh (not an already-chosen identifier) —
the condition under which the output identifiers are pairwise distinct. -/
def replacementsFresh (seenIds : List Int) (index : Nat) : List Story → Bool
  | [] => true
  | story :: rest =>
    if seenIds.contains story.id then
      let h := jsCreateHash (story.title ++ story.url.getD "" ++ toString index)
      !seenIds.contains h && replacementsFresh (h :: seenIds) (index + 1) rest
    else replacementsFresh (story.id :: seenIds) (index + 1) rest

/-- The entries of a summary index that are not expired at `now` — what a
lazy sweep keeps. -/
def liveEntries (index : SummaryCacheIndex) (now : Int) : SummaryCacheIndex :=
  index.filter fun e => !(isExpired now e.2.timestamp)

/-- The JavaScript `Map` built by the aggregation dedup, as an entry list. -/
def urlMapOf (posts : List TrendingPost) : List (String × TrendingPost) :=
  posts.foldl (fun m post => setKey m post.url post) []

/-! ## Association-list lemmas -/

theorem mem_setKey {α : Type} {m : List (String × α)} {k : String} {v : α}
    {e : String × α} (h : e ∈ setKey m k v) : e = (k, v) ∨ e ∈ m := by
  induction m with
  | nil => simpa [setKey] using h
  | cons a t ih =>
    by_cases hk : a.1 == k
    · rw [setKey, if_pos hk] at h
      rcases List.mem_cons.1 h with h | h
      · left; exact h
      · right; exact List.mem_cons_of_mem _ h
    · rw [setKey, if_neg hk] at h
      rcases List.mem_cons.1 h with h | h
      · right; exact h ▸ List.mem_cons_self _ _
      · rcases ih h with h | h
        · left; exact h
        · right; exact List.mem_cons_of_mem _ h

theorem lookupKey_setKey_self {α : Type} (m : List (String × α)) (k : String)
    (v : α) : lookupKey (setKey m k v) k = some v := by
  induction m with
  | nil => simp [setKey, lookupKey]
  | cons a t ih =>
    by_cases hk : a.1 == k
    · rw [setKey, if_pos hk, lookupKey, if_pos (by simp)]
    · rw [setKey, if_neg hk, lookupKey, if_neg hk]
      exact ih

theorem lookupKey_setKey_ne {α : Type} (m : List (String × α)) (k k2 : String)
    (v : α) (h : k2 ≠ k) : lookupKey (setKey m k v) k2 = lookupKey m k2 := by
  have hkk2 : (k == k2) = false := beq_eq_false_iff_ne.2 fun hc => h hc.symm
  induction m with
  | nil => simp [setKey, lookupKey, hkk2]
  | cons a t ih =>
    by_cases hk : a.1 == k
    · have ha : ¬ (a.1 == k2) = true := by
        rw [beq_iff_eq] at hk ⊢
        exact fun hc => h (hc ▸ hk)
      rw [setKey, if_pos hk, lookupKey, if_neg (by simp [hkk2]), lookupKey,
        if_neg ha]
    · rw [setKey, if_neg hk]
      by_cases ha : a.1 == k2
      · rw [lookupKey, if_pos ha, lookupKey, if_pos ha]
      · rw [lookupKey, if_neg ha, lookupKey, if_neg ha]
        exact ih

theorem keysOf_cons {α : Type} (e : String × α) (t : List (String × α)) :
    keysOf (e :: t) = e.1 :: keysOf t := rfl

theorem keysOf_setKey_of_mem {α : Type} (m : List (String × α)) (k : String)
    (v : α) (h : k ∈ keysOf m) : keysOf (setKey m k v) = keysOf m := by
  induction m with
  | nil => simp [keysOf] at h
  | cons a t ih =>
    by_cases hk : a.1 == k
    · rw [setKey, if_pos hk, keysOf_cons, keysOf_cons, (beq_iff_eq.1 hk)]
    · have ht : k ∈ keysOf t := by
        rw [keysOf_cons] at h
        rcases List.mem_cons.1 h with h1 | h1
        · exact absurd (beq_iff_eq.2 h1.symm) hk
        · exact h1
      rw [setKey, if_neg hk, keysOf_cons, keysOf_cons, ih ht]

theorem keysOf_setKey_of_not_mem {α : Type} (m : List (String × α)) (k : String)
    (v : α) (h : k ∉ keysOf m) : keysOf (setKey m k v) = keysOf m ++ [k] := by
  induction m with
  | nil => rfl
  | cons a t ih =>
    have hne : k ≠ a.1 := fun hc => h (keysOf_cons a t ▸ List.mem_cons.2 (.inl hc))
    have ht : k ∉ keysOf t := fun hc => h (keysOf_cons a t ▸ List.mem_cons.2 (.inr hc))
    have hk : ¬ (a.1 == k) = true := by
      rw [beq_iff_eq]; exact fun hc => hne hc.symm
    rw [setKey, if_neg hk, keysOf_cons, keysOf_cons, ih ht, List.cons_append]

theorem setKey_eq_append_of_not_mem {α : Type} (m : List (String × α))
    (k : String) (v : α) (h : k ∉ keysOf m) : setKey m k v = m ++ [(k, v)] := by
  induction m with
  | nil => rfl
  | cons a t ih =>
    have hne : k ≠ a.1 := fun hc => h (keysOf_cons a t ▸ List.mem_cons.2 (.inl hc))
    have ht : k ∉ keysOf t := fun hc => h (keysOf_cons a t ▸ List.mem_cons.2 (.inr hc))
    have hk : ¬ (a.1 == k) = true := by
      rw [beq_iff_eq]; exact fun hc => hne hc.symm
    rw [setKey, if_neg hk, ih ht, List.cons_append]

theorem mem_keysOf_setKey {α : Type} (m : List (String × α)) (k u : String)
    (v : α) : u ∈ keysOf (setKey m k v) ↔ u ∈ keysOf m ∨ u = k := by
  by_cases hm : k ∈ keysOf m
  · rw [keysOf_setKey_of_mem m k v hm]
    exact ⟨fun h => .inl h, fun h => h.elim id fun h => h ▸ hm⟩
  · rw [keysOf_setKey_of_not_mem m k v hm]
    simp [List.mem_append]

theorem nodup_keysOf_setKey {α : Type} (m : List (String × α)) (k : String)
    (v : α) (h : (keysOf m).Nodup) : (keysOf (setKey m k v)).Nodup := by
  by_cases hm : k ∈ keysOf m
  · rw [keysOf_setKey_of_mem m k v hm]; exact h
  · rw [keysOf_setKey_of_not_mem m k v hm]
    simpa [List.nodup_append] using ⟨h, fun hc => hm hc⟩

/-! ## Claim theorems -/

/-- C8: in the aggregation sort comparator, for every pair of posts whose
scores differ by at least the closeness threshold (5) the higher-scoring
post is ordered first (negative comparator value), and for every pair
whose scores are within the threshold the more recently created post is
ordered first; in particular a score-103 newer post is ordered before a
score-100 older post, while a score-130 post is ordered before a
score-100 post regardless of age. -/
theorem comparePosts_score_then_recency (a b : TrendingPost) :
    ((b.score - a.score).natAbs ≥ 5 → (comparePosts a b < 0 ↔ b.score < a.score)) ∧
    ((b.score - a.score).natAbs < 5 →
      (comparePosts a b < 0 ↔ b.created_utc < a.created_utc)) ∧
    comparePosts ⟨"b", "B", "ub", "pb", 103, "x", 2000, 0, ""⟩
        ⟨"a", "A", "ua", "pa", 100, "x", 1000, 0, ""⟩ < 0 ∧
    comparePosts ⟨"c", "C", "uc", "pc", 130, "x", 0, 0, ""⟩
        ⟨"a", "A", "ua", "pa", 100, "x", 1000, 0, ""⟩ < 0 := by
  refine ⟨fun h => ?_, fun h => ?_, by decide, by decide⟩
  · rw [comparePosts, if_neg (by omega)]
    omega
  · rw [comparePosts, if_pos h]
    omega

/-- Witness for `comparePosts_score_then_recency`: the two concrete pairs
of the spec, with both hypotheses discharged at concrete scores. -/
theorem comparePosts_score_then_recency_witness :
    comparePosts ⟨"b", "B", "ub", "pb", 103, "x", 2000, 0, ""⟩
        ⟨"a", "A", "ua", "pa", 100, "x", 1000, 0, ""⟩ < 0 ∧
    comparePosts ⟨"c", "C", "uc", "pc", 130, "x", 0, 0, ""⟩
        ⟨"a", "A", "ua", "pa", 100, "x", 1000, 0, ""⟩ < 0 :=
  ⟨((comparePosts_score_then_recency ⟨"b", "B", "ub", "pb", 103, "x", 2000, 0, ""⟩
      ⟨"a", "A", "ua", "pa", 100, "x", 1000, 0, ""⟩).2.1 (by decide)).2 (by decide),
   ((comparePosts_score_then_recency ⟨"c", "C", "uc", "pc", 130, "x", 0, 0, ""⟩
      ⟨"a", "A", "ua", "pa", 100, "x", 1000, 0, ""⟩).1 (by decide)).2 (by decide)⟩

/-- C7: failed source fetches contribute an empty post list and never
abort the aggregation — the pipeline output equals the output computed
from the successful sources alone — and the returned list never exceeds
the requested limit. -/
theorem aggregatePosts_partial_failure (limit : Nat)
    (outcomes : List (Except String (List TrendingPost))) :
    aggregatePosts limit outcomes =
      aggregatePosts limit (outcomes.filter fun o => o.isOk) ∧
    (aggregatePosts limit outcomes).length ≤ limit ∧
    ∀ e : String, (fetchFromSource (Except.error e)).posts = [] := by
  refine ⟨?_, ?_, fun e => rfl⟩
  · unfold aggregatePosts
    suffices h : (outcomes.map fun o => (fetchFromSource o).posts).flatten =
        ((outcomes.filter fun o => o.isOk).map fun o =>
          (fetchFromSource o).posts).flatten by rw [h]
    induction outcomes with
    | nil => rfl
    | cons o rest ih =>
      cases o with
      | ok posts => simpa [fetchFromSource, Except.isOk, Except.toBool] using ih
      | error e => simpa [fetchFromSource, Except.isOk, Except.toBool] using ih
  · unfold aggregatePosts
    exact List.length_take_le _ _

/-- C10: each public read operation absorbs an internal failure (an
unreadable or unparseable index file, modelled by the `Except.error`
environment): the gets report a miss, the stats report zero entries, and
no exception escapes (the model's return types are total). -/
theorem cache_reads_total_on_read_failure (now : Int) (url query : String)
    (files : List String) :
    getCachedSummary (Except.error ()) now url = none ∧
    getSummaryCacheStats (Except.error ()) now =
      { totalEntries := 0, totalSize := "0.00 KB", expiredEntries := 0 } ∧
    getCachedImage (Except.error ()) files query = (none, none) := by
  refine ⟨rfl, ?_, rfl⟩
  rfl

/-- C2: for every summarize request with a non-empty title that misses
the in-memory cache, if the Gemini attempt and the OpenAI attempt both
fail (missing key, thrown error, or too-short output — all the `.error`
cases of the provider models), the handler returns the deterministic
template fallback for that exact request and surfaces no error: the
result is `.ok` with source `"fallback"`. -/
theorem summarize_exhaustion_falls_back (title : String) (url : Option String)
    (cache : List (String × MemCacheEntry)) (now : Int)
    (gemKey : Option String) (gemResp : Except Unit String)
    (oaiKey : Option String) (oaiResp : Except Unit (Option String))
    (htitle : ¬ jsTrim title = "")
    (hcache : ∀ c, lookupKey cache (generateCacheKey title url) = some c →
      isCacheValid now c.timestamp = false)
    (hgem : ∃ e, generateGeminiSummary gemKey gemResp = .error e)
    (hoai : ∃ e, generateOpenAISummary oaiKey oaiResp = .error e) :
    summarizePOST title url cache now gemKey gemResp oaiKey oaiResp =
      .ok (⟨generateFallbackSummary title url, "fallback", false⟩,
        setKey cache (generateCacheKey title url)
          { summary := generateFallbackSummary title url, timestamp := now,
            source := "fallback" }) := by
  obtain ⟨eg, hg⟩ := hgem
  obtain ⟨eo, ho⟩ := hoai
  have hcas : summarizeCascade title url cache now gemKey gemResp oaiKey oaiResp =
      (⟨generateFallbackSummary title url, "fallback", false⟩,
        setKey cache (generateCacheKey title url)
          { summary := generateFallbackSummary title url, timestamp := now,
            source := "fallback" }) := by
    unfold summarizeCascade
    rw [hg, ho]
  unfold summarizePOST
  rw [if_neg htitle]
  cases hc : lookupKey cache (generateCacheKey title url) with
  | none => rw [hcas]
  | some c =>
    have hv := hcache c hc
    simp only [hv, Bool.false_eq_true, if_false, hcas]

/-- Witness for `summarize_exhaustion_falls_back`: the spec's end-to-end
example — no API keys configured, both providers failing, empty cache. -/
theorem summarize_exhaustion_falls_back_witness :
    summarizePOST "Show HN: my project" (some "https://x.example/p") [] 0
        none (.error ()) none (.error ()) =
      .ok (⟨generateFallbackSummary "Show HN: my project" (some "https://x.example/p"),
            "fallback", false⟩,
        setKey [] (generateCacheKey "Show HN: my project" (some "https://x.example/p"))
          { summary := generateFallbackSummary "Show HN: my project"
              (some "https://x.example/p"),
            timestamp := 0, source := "fallback" }) :=
  summarize_exhaustion_falls_back "Show HN: my project" (some "https://x.example/p")
    [] 0 none (.error ()) none (.error ()) (by decide)
    (fun c hc => Option.noConfusion hc) ⟨_, rfl⟩ ⟨_, rfl⟩

/-- C6: a summary-cache `put` with a key not among the live entries
removes every expired entry in one pass, appends the new entry, and saves
an index of exactly `M + 1` entries (`M` the number of live entries),
none of which is expired. -/
theorem cacheSummary_lazy_sweep (index : SummaryCacheIndex) (now : Int)
    (url s t : String)
    (h : generateUrlHash url ∉ keysOf (liveEntries index now)) :
    cacheSummary (Except.ok index) now url s t =
      some (liveEntries index now ++
        [(generateUrlHash url,
          ({ summary := s, timestamp := now, title := t,
             urlHash := generateUrlHash url } : SummaryCacheEntry))]) ∧
    (liveEntries index now ++
        [(generateUrlHash url,
          ({ summary := s, timestamp := now, title := t,
             urlHash := generateUrlHash url } : SummaryCacheEntry))]).length =
      (liveEntries index now).length + 1 ∧
    ∀ e ∈ liveEntries index now ++
        [(generateUrlHash url,
          ({ summary := s, timestamp := now, title := t,
             urlHash := generateUrlHash url } : SummaryCacheEntry))],
      isExpired now e.2.timestamp = false := by
  refine ⟨?_, by simp, ?_⟩
  · exact congrArg some (setKey_eq_append_of_not_mem _ _ _ h)
  · intro e he
    rcases List.mem_append.1 he with he | he
    · have := (List.mem_filter.1 he).2
      simpa using this
    · have : e = (generateUrlHash url,
          ({ summary := s, timestamp := now, title := t,
             urlHash := generateUrlHash url } : SummaryCacheEntry)) := by
        simpa using he
      rw [this]
      simp only [isExpired, summaryExpiryMs, decide_eq_false_iff_not]
      omega

/-- Witness for `cacheSummary_lazy_sweep`: one expired and one live entry,
a fresh key. -/
theorem cacheSummary_lazy_sweep_witness :
    cacheSummary (Except.ok [("exp", ⟨"olds", 0, "t1", "exp"⟩),
        ("liv", ⟨"news", 1000000000000, "t2", "liv"⟩)]) 1000000000000 "u" "sum" "tit" =
      some (liveEntries [("exp", ⟨"olds", 0, "t1", "exp"⟩),
          ("liv", ⟨"news", 1000000000000, "t2", "liv"⟩)] 1000000000000 ++
        [(generateUrlHash "u",
          ({ summary := "sum", timestamp := 1000000000000, title := "tit",
             urlHash := generateUrlHash "u" } : SummaryCacheEntry))]) ∧
    (liveEntries [("exp", ⟨"olds", 0, "t1", "exp"⟩),
          ("liv", ⟨"news", 1000000000000, "t2", "liv"⟩)] 1000000000000 ++
        [(generateUrlHash "u",
          ({ summary := "sum", timestamp := 1000000000000, title := "tit",
             urlHash := generateUrlHash "u" } : SummaryCacheEntry))]).length =
      (liveEntries [("exp", ⟨"olds", 0, "t1", "exp"⟩),
          ("liv", ⟨"news", 1000000000000, "t2", "liv"⟩)] 1000000000000).length + 1 ∧
    ∀ e ∈ liveEntries [("exp", ⟨"olds", 0, "t1", "exp"⟩),
          ("liv", ⟨"news", 1000000000000, "t2", "liv"⟩)] 1000000000000 ++
        [(generateUrlHash "u",
          ({ summary := "sum", timestamp := 1000000000000, title := "tit",
             urlHash := generateUrlHash "u" } : SummaryCacheEntry))],
      isExpired 1000000000000 e.2.timestamp = false :=
  cacheSummary_lazy_sweep [("exp", ⟨"olds", 0, "t1", "exp"⟩),
    ("liv", ⟨"news", 1000000000000, "t2", "liv"⟩)] 1000000000000 "u" "sum" "tit"
    (by decide)

/-- C1 (amended): the summary-tier `saveCacheIndex` writes the serialized
index to a temp file in the same directory and atomically renames it over
the canonical index file, so a concurrent reader of the index file
observes only the old complete document or the new complete one; the
image-tier `saveCacheIndex` is a single direct write to the canonical
index file (no temp file, no rename). -/
theorem summary_save_atomic_image_save_direct
    (fs : Fs) (index : SummaryCacheIndex) (old : String)
    (h : fsGet fs summaryIndexFile = some old) :
    (∀ v ∈ canonViews summaryIndexFile fs (saveSummaryIndexOps index),
      v = some old ∨ v = some (stringifySummaryIndexPretty index)) ∧
    ∀ imgIndex : ImageCacheIndex,
      saveImageIndexOps imgIndex =
        [FsOp.write imageIndexFile (stringifyImageIndexPretty imgIndex)] := by
  refine ⟨?_, fun imgIndex => rfl⟩
  intro v hv
  have hne : ¬ (summaryIndexFile ++ ".tmp" = summaryIndexFile) := by decide
  simp only [saveSummaryIndexOps, canonViews, midViews, applyFsOp, fsGet,
    if_neg hne, List.nil_append, List.cons_append, List.mem_cons,
    List.not_mem_nil, or_false] at hv
  rw [lookupKey_setKey_self] at hv
  rcases hv with rfl | hv
  · left; exact h
  rw [lookupKey_setKey_ne _ _ _ _ (by decide)] at hv
  rcases hv with rfl | hv
  · left; exact h
  rw [lookupKey_setKey_self] at hv
  rw [hv]
  right; rfl

/-- Witness for `summary_save_atomic_image_save_direct`: a concrete
filesystem holding the old empty-object index and a one-entry index to save. -/
theorem summary_save_atomic_witness :
    (∀ v ∈ canonViews summaryIndexFile [(summaryIndexFile, "\x7b\x7d")]
        (saveSummaryIndexOps [("k", ⟨"s", 0, "t", "k"⟩)]),
      v = some "\x7b\x7d" ∨
      v = some (stringifySummaryIndexPretty [("k", ⟨"s", 0, "t", "k"⟩)])) ∧
    ∀ imgIndex : ImageCacheIndex,
      saveImageIndexOps imgIndex =
        [FsOp.write imageIndexFile (stringifyImageIndexPretty imgIndex)] :=
  summary_save_atomic_image_save_direct [(summaryIndexFile, "\x7b\x7d")]
    [("k", ⟨"s", 0, "t", "k"⟩)] "\x7b\x7d" (by decide)

/-- Counterexample to C1 as stated: an image-tier save is a direct write,
so a concurrent reader of the image index file can observe a state (here
the truncated empty file) that is neither the old complete document nor
the new complete one. -/
theorem image_save_observable_partial_write :
    ¬ (∀ v ∈ canonViews imageIndexFile [(imageIndexFile, "\x7b\x7d")]
          (saveImageIndexOps [("q", ⟨"f.jpg", 0, "http://o"⟩)]),
        v = some "\x7b\x7d" ∨
        v = some (stringifyImageIndexPretty [("q", ⟨"f.jpg", 0, "http://o"⟩)])) := by
  decide

/-- C3 (amended): a summary-cache `get` on an absent or expired entry
returns a miss and performs no write (its model has no save component at
all, matching a body with no `saveCacheIndex` call); an image-cache `get`
on an absent entry returns a miss with no save, performs no expiry check
(an entry whose artifact file exists is returned as a hit regardless of
its timestamp), and when the entry's artifact file is missing it deletes
the entry and saves the rewritten index (self-heal). -/
theorem cache_get_read_paths
    (read : Except Unit SummaryCacheIndex) (now : Int) (url : String)
    (readImg : Except Unit ImageCacheIndex) (files : List String) (query : String) :
    (lookupKey (loadCacheIndex read) (generateUrlHash url) = none →
      getCachedSummary read now url = none) ∧
    (∀ e, lookupKey (loadCacheIndex read) (generateUrlHash url) = some e →
      isExpired now e.timestamp = true → getCachedSummary read now url = none) ∧
    (lookupKey (loadImageCacheIndex readImg) (jsToLower query) = none →
      getCachedImage readImg files query = (none, none)) ∧
    (∀ e, lookupKey (loadImageCacheIndex readImg) (jsToLower query) = some e →
      files.contains e.filename = true →
      getCachedImage readImg files query = (some ("/cache/" ++ e.filename), none)) ∧
    (∀ e, lookupKey (loadImageCacheIndex readImg) (jsToLower query) = some e →
      files.contains e.filename = false →
      getCachedImage readImg files query =
        (none, some (eraseKey (loadImageCacheIndex readImg) (jsToLower query)))) := by
  refine ⟨fun h => ?_, fun e he hexp => ?_, fun h => ?_,
    fun e he hf => ?_, fun e he hf => ?_⟩
  · simp only [getCachedSummary, h]
  · simp only [getCachedSummary, he, hexp, if_true]
  · simp only [getCachedImage, h]
  · simp only [getCachedImage, he, hf, if_true]
  · simp only [getCachedImage, he, hf, Bool.false_eq_true, if_false]

/-- Witness for `cache_get_read_paths`: an expired summary entry misses
without mutation, and an image entry with its file present hits. -/
theorem cache_get_read_paths_witness :
    getCachedSummary (Except.ok [(generateUrlHash "u",
        ⟨"s", 0, "t", generateUrlHash "u"⟩)]) 1000000000000 "u" = none ∧
    getCachedImage (Except.ok [("q", ⟨"f.jpg", 0, "http://o"⟩)]) ["f.jpg"] "q" =
      (some ("/cache/" ++ "f.jpg"), none) :=
  ⟨(cache_get_read_paths (Except.ok [(generateUrlHash "u",
        ⟨"s", 0, "t", generateUrlHash "u"⟩)]) 1000000000000 "u"
      (Except.ok []) [] "").2.1 ⟨"s", 0, "t", generateUrlHash "u"⟩
      (by decide) (by decide),
   (cache_get_read_paths (Except.ok []) 0 ""
      (Except.ok [("q", ⟨"f.jpg", 0, "http://o"⟩)]) ["f.jpg"] "q").2.2.2.1
      ⟨"f.jpg", 0, "http://o"⟩ (by decide) (by decide)⟩

/-- Counterexample to C3 as stated: an image-cache `get` whose entry is
present but whose artifact file is missing deletes the index entry and
saves the rewritten index (a read that mutates state), and an image-cache
`get` never checks expiry — an entry created at time 0 and read at a
`now` for which the expiry policy reports it expired is still returned as
a hit. -/
theorem image_get_mutates_and_ignores_expiry :
    getCachedImage (Except.ok [("q", ⟨"f.jpg", 0, "http://o"⟩)]) [] "q" =
      (none, some []) ∧
    isExpired 1000000000000 0 = true ∧
    (getCachedImage (Except.ok [("q", ⟨"f.jpg", 0, "http://o"⟩)]) ["f.jpg"] "q").1 =
      some "/cache/f.jpg" := by
  decide

/-- C5 (amended): the image cache lowercases its key, so two inputs that
differ only by letter case resolve to the same cache key and a value
stored under one spelling is found under the other; surrounding
whitespace is not stripped, and the summary cache applies no
normalization at all — its key is the MD5 of the URL exactly as given. -/
theorem image_cache_key_case_insensitive (q1 q2 imageUrl : String) (now : Int)
    (read : Except Unit ImageCacheIndex) (files : List String)
    (h : jsToLower q1 = jsToLower q2) :
    (getCachedImage (Except.ok (cacheImageIndex read q1 imageUrl now))
        (generateFilename q1 :: files) q2).1 =
      some ("/cache/" ++ generateFilename q1) ∧
    ∀ url : String, generateUrlHash url = md5Hex (strBytes url) := by
  refine ⟨?_, fun url => rfl⟩
  have hl : lookupKey
      (loadImageCacheIndex (Except.ok (cacheImageIndex read q1 imageUrl now)))
      (jsToLower q2) =
      some { filename := generateFilename q1, timestamp := now,
             originalUrl := imageUrl } := by
    show lookupKey (cacheImageIndex read q1 imageUrl now) (jsToLower q2) = _
    rw [cacheImageIndex, ← h, lookupKey_setKey_self]
  simp only [getCachedImage, hl, List.contains_cons, BEq.refl, Bool.true_or,
    if_true]

/-- Witness for `image_cache_key_case_insensitive`: `"FOO"` and `"foo"`. -/
theorem image_cache_key_case_insensitive_witness :
    (getCachedImage (Except.ok (cacheImageIndex (Except.ok []) "FOO" "http://img" 0))
        (generateFilename "FOO" :: []) "foo").1 =
      some ("/cache/" ++ generateFilename "FOO") ∧
    ∀ url : String, generateUrlHash url = md5Hex (strBytes url) :=
  image_cache_key_case_insensitive "FOO" "foo" "http://img" 0 (Except.ok []) []
    (by decide)

/-- Counterexample to C5 as stated: an image stored under `"foo"` is not
found under `" foo"` (surrounding whitespace is not normalized), and the
summary-cache keys of `"url"` and `"URL"` differ (the MD5 is taken over
the raw URL, so a value cached under one case spelling misses under the
other). -/
theorem cache_key_normalization_gaps :
    (getCachedImage (Except.ok (cacheImageIndex (Except.ok []) "foo" "http://img" 0))
        [generateFilename "foo"] " foo").1 = none ∧
    generateUrlHash "URL" ≠ generateUrlHash "url" ∧
    getCachedSummary
      (Except.ok ((cacheSummary (Except.ok []) 0 "url" "s" "t").getD [])) 0 "URL" =
      none ∧
    getCachedSummary
      (Except.ok ((cacheSummary (Except.ok []) 0 "url" "s" "t").getD [])) 0 "url" =
      some "s" := by
  refine ⟨by decide, by decide, by decide, by decide⟩

theorem find?_map_snd_eq_lookupKey (m : List (String × TrendingPost))
    (u : String) (hm : ∀ e ∈ m, e.2.url = e.1) :
    (m.map fun e => e.2).find? (fun p => p.url == u) = lookupKey m u := by
  induction m with
  | nil => rfl
  | cons a t ih =>
    have ha : a.2.url = a.1 := hm a (List.mem_cons_self _ _)
    have ht : ∀ e ∈ t, e.2.url = e.1 := fun e he => hm e (List.mem_cons_of_mem _ he)
    by_cases hk : a.1 == u
    · rw [List.map_cons, List.find?_cons_of_pos _ (by rw [ha]; exact hk),
        lookupKey, if_pos hk]
    · rw [List.map_cons, List.find?_cons_of_neg _ (by rw [ha]; exact hk),
        lookupKey, if_neg hk]
      exact ih ht

theorem urlMap_entries (posts : List TrendingPost) :
    ∀ m : List (String × TrendingPost), (∀ e ∈ m, e.2.url = e.1) →
      ∀ e ∈ posts.foldl (fun m post => setKey m post.url post) m, e.2.url = e.1 := by
  induction posts with
  | nil => intro m hm; simpa using hm
  | cons p rest ih =>
    intro m hm e he
    refine ih (setKey m p.url p) ?_ e he
    intro a ha
    rcases mem_setKey ha with h | h
    · rw [h]
    · exact hm a h

theorem urlMap_keys_nodup (posts : List TrendingPost) :
    ∀ m : List (String × TrendingPost), (keysOf m).Nodup →
      (keysOf (posts.foldl (fun m post => setKey m post.url post) m)).Nodup := by
  induction posts with
  | nil => intro m hm; simpa using hm
  | cons p rest ih =>
    intro m hm
    exact ih (setKey m p.url p) (nodup_keysOf_setKey m p.url p hm)

theorem urlMap_lookup (posts : List TrendingPost) (u : String)
    (m : List (String × TrendingPost)) :
    lookupKey (posts.foldl (fun m post => setKey m post.url post) m) u =
      match posts.reverse.find? (fun p => p.url == u) with
      | some p => some p
      | none => lookupKey m u := by
  induction posts using List.reverseRecOn with
  | nil => rfl
  | append_singleton l p ih =>
    rw [List.foldl_append, List.reverse_append, List.reverse_singleton,
      List.singleton_append]
    by_cases hk : p.url == u
    · have hu : p.url = u := beq_iff_eq.1 hk
      subst hu
      rw [List.foldl_cons, List.foldl_nil, lookupKey_setKey_self,
        List.find?_cons_of_pos _ (by simp)]
    · have hu : u ≠ p.url := fun hc => hk (beq_iff_eq.2 hc.symm)
      have hfind : List.find? (fun q => q.url == u) (p :: l.reverse) =
          List.find? (fun q => q.url == u) l.reverse :=
        List.find?_cons_of_neg _ hk
      rw [List.foldl_cons, List.foldl_nil, lookupKey_setKey_ne _ _ _ _ hu, hfind]
      exact ih

theorem urlMap_mem_keys (posts : List TrendingPost) (u : String) :
    ∀ m : List (String × TrendingPost),
      (u ∈ keysOf (posts.foldl (fun m post => setKey m post.url post) m) ↔
        u ∈ keysOf m ∨ u ∈ posts.map fun p => p.url) := by
  induction posts with
  | nil => intro m; simp
  | cons p rest ih =>
    intro m
    rw [List.foldl_cons, ih (setKey m p.url p), mem_keysOf_setKey,
      List.map_cons, List.mem_cons]
    tauto

/-- C4 (amended): the aggregation dedup keeps exactly one entry per
distinct URL, and when several merged posts share a URL the entry kept is
the **last** occurrence in merge order (a JavaScript `Map` built from an
entry list lets later entries overwrite earlier ones), regardless of
source tag. -/
theorem uniquePosts_one_per_url_last_wins (posts : List TrendingPost) :
    ((uniquePosts posts).map fun p => p.url).Nodup ∧
    (∀ u, u ∈ posts.map (fun p => p.url) →
      ((uniquePosts posts).map fun p => p.url).count u = 1) ∧
    ∀ u, (uniquePosts posts).find? (fun p => p.url == u) =
      posts.reverse.find? (fun p => p.url == u) := by
  have hentries : ∀ e ∈ urlMapOf posts, e.2.url = e.1 :=
    urlMap_entries posts [] (by simp)
  have hkeysmap : (uniquePosts posts).map (fun p => p.url) =
      keysOf (urlMapOf posts) := by
    show ((urlMapOf posts).map fun e => e.2).map (fun p => p.url) = _
    rw [List.map_map]
    exact List.map_congr_left fun e he => hentries e he
  have hnodup : (keysOf (urlMapOf posts)).Nodup :=
    urlMap_keys_nodup posts [] List.nodup_nil
  refine ⟨hkeysmap ▸ hnodup, ?_, ?_⟩
  · intro u hu
    rw [hkeysmap]
    exact List.count_eq_one_of_mem hnodup ((urlMap_mem_keys posts u []).2 (.inr hu))
  · intro u
    rw [show (uniquePosts posts).find? (fun p => p.url == u) =
        lookupKey (urlMapOf posts) u from find?_map_snd_eq_lookupKey _ u hentries,
      urlMapOf, urlMap_lookup posts u []]
    cases posts.reverse.find? fun p => p.url == u <;> rfl

/-- Counterexample to C4 as stated: two merged posts with the same URL —
the dedup keeps the second (last) occurrence, not the first. -/
theorem uniquePosts_keeps_last_not_first :
    uniquePosts [⟨"1", "first", "u", "p1", 1, "a", 0, 0, "s1"⟩,
                 ⟨"2", "second", "u", "p2", 2, "b", 0, 0, "s2"⟩] =
      [⟨"2", "second", "u", "p2", 2, "b", 0, 0, "s2"⟩] ∧
    (⟨"2", "second", "u", "p2", 2, "b", 0, 0, "s2"⟩ : TrendingPost) ≠
      ⟨"1", "first", "u", "p1", 1, "a", 0, 0, "s1"⟩ := by
  decide

theorem int_contains_iff (l : List Int) (a : Int) : l.contains a = true ↔ a ∈ l :=
  List.elem_iff

theorem ensureUniqueIdsGo_nodup (stories : List Story) :
    ∀ (seen : List Int) (i : Nat), replacementsFresh seen i stories = true →
      ((ensureUniqueIdsGo seen i stories).map fun s => s.id).Nodup ∧
      ∀ x ∈ (ensureUniqueIdsGo seen i stories).map fun s => s.id, x ∉ seen := by
  induction stories with
  | nil => intro seen i h; exact ⟨List.nodup_nil, by simp [ensureUniqueIdsGo]⟩
  | cons s rest ih =>
    intro seen i h
    by_cases hc : seen.contains s.id
    · simp only [replacementsFresh, hc, if_true] at h
      rw [Bool.and_eq_true] at h
      obtain ⟨hfresh, hrest⟩ := h
      have hnotin : jsCreateHash (s.title ++ s.url.getD "" ++ toString i) ∉ seen := by
        intro hmem
        rw [(int_contains_iff seen _).2 hmem] at hfresh
        simp at hfresh
      have ihr := ih (jsCreateHash (s.title ++ s.url.getD "" ++ toString i) :: seen)
        (i + 1) hrest
      simp only [ensureUniqueIdsGo, hc, if_true, List.map_cons]
      constructor
      · refine List.nodup_cons.2 ⟨fun hmem => ?_, ihr.1⟩
        exact (ihr.2 _ hmem) (List.mem_cons_self _ _)
      · intro x hx
        rcases List.mem_cons.1 hx with hx | hx
        · exact hx ▸ hnotin
        · exact fun hmem => (ihr.2 x hx) (List.mem_cons_of_mem _ hmem)
    · have hcf : seen.contains s.id = false := by simpa using hc
      simp only [replacementsFresh, hcf, Bool.false_eq_true, if_false] at h
      have hnotin : s.id ∉ seen := fun hmem =>
        hc (by exact (int_contains_iff seen s.id).2 hmem)
      have ihr := ih (s.id :: seen) (i + 1) h
      simp only [ensureUniqueIdsGo, hcf, Bool.false_eq_true, if_false, List.map_cons]
      constructor
      · refine List.nodup_cons.2 ⟨fun hmem => ?_, ihr.1⟩
        exact (ihr.2 _ hmem) (List.mem_cons_self _ _)
      · intro x hx
        rcases List.mem_cons.1 hx with hx | hx
        · exact hx ▸ hnotin
        · exact fun hmem => (ihr.2 x hx) (List.mem_cons_of_mem _ hmem)

/-- C9 (amended): `ensureUniqueIds` replaces an identifier only when it
collides with an already-chosen one (a zero or absent identifier is not
specially replaced), computing the replacement deterministically as the
absolute value of a 32-bit string hash of `title ++ url ++ index` — a
pure function of those fields, with no randomness or clock salt, so
repeated runs on the same input agree — and the resulting identifiers are
pairwise distinct provided every replacement hash is itself fresh
(`replacementsFresh`); an unchecked replacement hash may collide. -/
theorem ensureUniqueIds_deterministic (stories : List Story) :
    (replacementsFresh [] 0 stories = true →
      ((ensureUniqueIds stories).map fun s => s.id).Nodup) ∧
    (∀ (seen : List Int) (i : Nat) (story : Story) (rest : List Story),
      seen.contains story.id = true →
      ensureUniqueIdsGo seen i (story :: rest) =
        { story with
            id := jsCreateHash (story.title ++ story.url.getD "" ++ toString i) } ::
          ensureUniqueIdsGo
            (jsCreateHash (story.title ++ story.url.getD "" ++ toString i) :: seen)
            (i + 1) rest) ∧
    ∀ (seen : List Int) (i : Nat) (story : Story) (rest : List Story),
      seen.contains story.id = false →
      ensureUniqueIdsGo seen i (story :: rest) =
        story :: ensureUniqueIdsGo (story.id :: seen) (i + 1) rest := by
  refine ⟨fun h => (ensureUniqueIdsGo_nodup stories [] 0 h).1,
    fun seen i story rest hc => ?_, fun seen i story rest hc => ?_⟩
  · simp only [ensureUniqueIdsGo, hc, if_true]
  · simp only [ensureUniqueIdsGo, hc, Bool.false_eq_true, if_false]

/-- Witness for `ensureUniqueIds_deterministic`: a two-story list whose
second identifier collides and is replaced by a fresh hash. -/
theorem ensureUniqueIds_deterministic_witness :
    ((ensureUniqueIds [⟨1, "x", none, 1, "u", 0⟩,
        ⟨1, "a", some "", 1, "u", 0⟩]).map fun s => s.id).Nodup ∧
    ensureUniqueIdsGo [1] 1 [⟨1, "a", some "", 1, "u", 0⟩] =
      [{ (⟨1, "a", some "", 1, "u", 0⟩ : Story) with
          id := jsCreateHash ("a" ++ "" ++ toString 1) }] ∧
    ensureUniqueIdsGo [] 0 [⟨7, "x", none, 1, "u", 0⟩] =
      [(⟨7, "x", none, 1, "u", 0⟩ : Story)] :=
  ⟨(ensureUniqueIds_deterministic [⟨1, "x", none, 1, "u", 0⟩,
      ⟨1, "a", some "", 1, "u", 0⟩]).1 (by decide),
   (ensureUniqueIds_deterministic []).2.1 [1] 1 ⟨1, "a", some "", 1, "u", 0⟩ []
     (by decide),
   (ensureUniqueIds_deterministic []).2.2 [] 0 ⟨7, "x", none, 1, "u", 0⟩ []
     (by decide)⟩

set_option maxRecDepth 4000 in
/-- Counterexample to C9 as stated: a replacement hash is not re-checked
against already-chosen identifiers — on a list whose second story hashes
to the first story the identifier 3056 repeats: the output is
`[3056, 3056]`, not pairwise unique — and a zero identifier is not
replaced at all, although the deterministic hash of its fields is
nonzero. -/
theorem ensureUniqueIds_collision_and_zero :
    ((ensureUniqueIds [⟨3056, "x", none, 1, "u", 0⟩,
        ⟨3056, "a", some "", 1, "u", 0⟩]).map fun s => s.id) = [3056, 3056] ∧
    ¬ ((ensureUniqueIds [⟨3056, "x", none, 1, "u", 0⟩,
        ⟨3056, "a", some "", 1, "u", 0⟩]).map fun s => s.id).Nodup ∧
    ensureUniqueIds [⟨0, "zero title", some "http://z", 1, "u", 0⟩] =
      [⟨0, "zero title", some "http://z", 1, "u", 0⟩] ∧
    jsCreateHash ("zero title" ++ "http://z" ++ "0") ≠ 0 := by
  decide

end HN
